import Mathlib

/-!
Shallow embedding of the document-tool caching and retrieval-routing
subsystem of the Agentic-RAG repository (src/indexer.py, src/app.py).

Documents are represented by their path strings; the external
text-segmentation service (SimpleDirectoryReader + SentenceSplitter) is a
parameter of type `Seg` returning either the ordered list of text segments
or an error (a raised DocumentLoadError).  Persisted vector/summary indices
are represented by the list of segments they were built over; a persisted
subtree additionally records whether it deserializes (`ok`).
-/

/-- A persisted index subtree on disk: whether it deserializes successfully,
and the segments of the index it stores. -/
structure SubTree where
  ok : Bool
  nodes : List String
  deriving DecidableEq

/-- The on-disk storage subtree for one document: the `vector` and `summary`
persist directories, each possibly missing. -/
structure DocStorage where
  vector : Option SubTree
  summary : Option SubTree
  deriving DecidableEq

/-- The contents of the `storage` directory: one subtree per document name,
plus the optional `manifest.json` file (holding the indexed-files list). -/
structure StorageData where
  docDirs : List (String × DocStorage)
  manifest : Option (List String)
  deriving DecidableEq

/-- Indexer-level system state: the `storage` directory (which may not exist)
and a counter of invocations of the external segmentation service. -/
structure Sys where
  storage : Option StorageData
  segCalls : Nat
  deriving DecidableEq

/-- The external text-segmentation service: document path to ordered
segments, or a DocumentLoadError. -/
abbrev Seg := String → Except String (List String)

/-- Characters of the final path component (after the last '/'),
as in `Path(p).name`. -/
def fileNameChars (cs : List Char) : List Char :=
  cs.foldl (fun acc c => if c = '/' then [] else acc ++ [c]) []

/-- Index of the last '.' in a character list, if any
(as in Python's `str.rfind`). -/
def lastDotIdx : List Char → Option Nat
  | [] => none
  | c :: rest =>
    match lastDotIdx rest with
    | some i => some (i + 1)
    | none => if c = '.' then some 0 else none

/-- `Path(name).stem`: the name with its last suffix removed; pathlib keeps
the name whole when the last dot is the first or the last character. -/
def stemChars (cs : List Char) : List Char :=
  match lastDotIdx cs with
  | none => cs
  | some i => if 0 < i ∧ i + 1 < cs.length then cs.take i else cs

/-- `get_doc` (src/indexer.py): document identity from a path,
`Path(pdf_path).stem`. -/
def getDoc (pdfPath : String) : String :=
  String.mk (stemChars (fileNameChars pdfPath.data))

/-- The retrieval policy of a query engine: `similarity_top_k` dense
retrieval for vector engines, `tree_summarize` over every segment for
summary engines. -/
inductive RetrievalPolicy where
  | vectorTopK (k : Nat)
  | treeSummarize
  deriving DecidableEq

/-- A query engine: a retrieval policy over the backing index's segments. -/
structure QueryEngine where
  policy : RetrievalPolicy
  nodes : List String
  deriving DecidableEq

/-- A capability: named, described, backed by a query engine. -/
structure QueryEngineTool where
  name : String
  description : String
  engine : QueryEngine
  deriving DecidableEq

/-- The vector (content-lookup) tool built for a document, exactly as both
construction sites in src/indexer.py build it. -/
def mkVectorTool (docName : String) (nodes : List String) : QueryEngineTool :=
  { name := "vector_" ++ docName
    description :=
      "Useful for answering questions about the content of the document "
        ++ docName ++ "."
    engine := { policy := .vectorTopK 2, nodes := nodes } }

/-- The summary tool built for a document, exactly as both construction
sites in src/indexer.py build it. -/
def mkSummaryTool (docName : String) (nodes : List String) : QueryEngineTool :=
  { name := "summary_" ++ docName
    description :=
      "Useful for summarizing the content of the document " ++ docName ++ "."
    engine := { policy := .treeSummarize, nodes := nodes } }

/-- Increment the segmentation-service invocation counter. -/
def bumpSeg (sys : Sys) : Sys :=
  { sys with segCalls := sys.segCalls + 1 }

/-- `build_doc_tools` (src/indexer.py): invoke the segmentation service,
build the vector and summary indices over the resulting segments, and
return the two tools plus both indices.  A segmentation failure raises. -/
def buildDocTools (seg : Seg) (sys : Sys) (pdfPath : String) :
    Except String (List QueryEngineTool × List String × List String) × Sys :=
  let docName := getDoc pdfPath
  match seg pdfPath with
  | .error e => (.error e, bumpSeg sys)
  | .ok nodes =>
      (.ok ([mkVectorTool docName nodes, mkSummaryTool docName nodes],
            nodes, nodes),
       bumpSeg sys)

/-- Overwrite-or-append the storage subtree of one document name. -/
def setDocDir (dirs : List (String × DocStorage)) (n : String)
    (d : DocStorage) : List (String × DocStorage) :=
  dirs.filter (fun e => e.1 ≠ n) ++ [(n, d)]

/-- `save_doc_index` (src/indexer.py): persist both index subtrees fully
under the document's name (creating the storage root if needed). -/
def saveDocIndex (sys : Sys) (docName : String)
    (vnodes snodes : List String) : Sys :=
  let entry : DocStorage :=
    { vector := some { ok := true, nodes := vnodes }
      summary := some { ok := true, nodes := snodes } }
  match sys.storage with
  | none =>
      { sys with storage := some { docDirs := [(docName, entry)], manifest := none } }
  | some data =>
      { sys with storage := some { data with docDirs := setDocDir data.docDirs docName entry } }

/-- Look up the storage subtree of a document name. -/
def lookupDir : List (String × DocStorage) → String → Option DocStorage
  | [], _ => none
  | (m, d) :: rest, n => if m = n then some d else lookupDir rest n

/-- `load_doc_index` (src/indexer.py): `none` when either subtree is
missing, and `none` (after logging) when either fails to deserialize;
otherwise the cached pair of indices. -/
def loadDocIndex (st : Option StorageData) (docName : String) :
    Option (List String × List String) :=
  match st with
  | none => none
  | some data =>
    match lookupDir data.docDirs docName with
    | none => none
    | some d =>
      match d.vector, d.summary with
      | some vt, some su =>
          if vt.ok && su.ok then some (vt.nodes, su.nodes) else none
      | _, _ => none

/-- `load_manifest` (src/indexer.py): the indexed-files list of the
manifest file, or empty when the file does not exist. -/
def loadManifest (st : Option StorageData) : List String :=
  match st with
  | none => []
  | some data =>
    match data.manifest with
    | none => []
    | some files => files

/-- `save_manifest` (src/indexer.py): create the storage root if needed and
overwrite the manifest file with the given list. -/
def saveManifestS (sys : Sys) (indexedFiles : List String) : Sys :=
  match sys.storage with
  | none =>
      { sys with storage := some { docDirs := [], manifest := some indexedFiles } }
  | some data =>
      { sys with storage := some { data with manifest := some indexedFiles } }

/-- `get_indexed_files` (src/indexer.py): the manifest's indexed-files
list. -/
def getIndexedFiles (st : Option StorageData) : List String :=
  loadManifest st

/-- `rebuild_tools_for_document` (src/indexer.py): on a cache hit, build
the two tools from the cached indices without touching disk; on a miss,
build from the segmentation service and persist both indices. -/
def rebuildToolsForDocument (seg : Seg) (sys : Sys) (pdfPath : String) :
    Except String (List QueryEngineTool) × Sys :=
  let docName := getDoc pdfPath
  match loadDocIndex sys.storage docName with
  | some (vnodes, snodes) =>
      (.ok [mkVectorTool docName vnodes, mkSummaryTool docName snodes], sys)
  | none =>
      match buildDocTools seg sys pdfPath with
      | (.error e, sys') => (.error e, sys')
      | (.ok (tools, vnodes, snodes), sys') =>
          (.ok tools, saveDocIndex sys' docName vnodes snodes)

/-- Loop body of `build_all_doc_tools` (src/indexer.py), with the two
accumulators of the source; the manifest is written once after the loop.
An error raised for one document propagates immediately. -/
def buildAllGo (seg : Seg) :
    List String → List QueryEngineTool → List String → Sys →
      Except String (List QueryEngineTool) × Sys
  | [], allTools, indexedFiles, sys =>
      (.ok allTools, saveManifestS sys indexedFiles)
  | pdfPath :: rest, allTools, indexedFiles, sys =>
      match rebuildToolsForDocument seg sys pdfPath with
      | (.error e, sys') => (.error e, sys')
      | (.ok tools, sys') =>
          buildAllGo seg rest (allTools ++ tools)
            (indexedFiles ++ [getDoc pdfPath]) sys'

/-- `build_all_doc_tools` (src/indexer.py). -/
def buildAllDocTools (seg : Seg) (sys : Sys) (pdfPaths : List String) :
    Except String (List QueryEngineTool) × Sys :=
  buildAllGo seg pdfPaths [] [] sys

/-- The answering agent: bound to the aggregated tool set through the tool
retriever (src/agent.py `create_agent`). -/
structure Agent where
  tools : List QueryEngineTool
  deriving DecidableEq

/-- Application-level state (src/app.py): the names of the files in the
data directory, the indexer system state, the two module-level globals
`agent` and `tool_index`, and a counter of language-model turns. -/
structure AppState where
  dataFiles : List String
  sys : Sys
  agent : Option Agent
  toolIndex : Option (List QueryEngineTool)
  llmCalls : Nat
  deriving DecidableEq

/-- Whether a filename matches the `*.pdf` glob. -/
def endsWithPdf (cs : List Char) : Bool :=
  match cs.reverse with
  | 'f' :: 'd' :: 'p' :: '.' :: _ => true
  | _ => false

/-- `*.pdf` glob test on a filename. -/
def isPdfName (n : String) : Bool :=
  endsWithPdf n.data

/-- `get_pdf_files` (src/app.py): the pdf files of the data directory. -/
def getPdfFiles (st : AppState) : List String :=
  st.dataFiles.filter (fun n => isPdfName n)

/-- The fixed no-documents status message of src/app.py. -/
def noDocsMsg : String :=
  "No documents indexed. Please upload PDFs."

/-- The indexed-status message of src/app.py
(`Indexed {n} documents: {list}`). -/
def indexedMsg (indexed : List String) : String :=
  "Indexed " ++ toString indexed.length ++ " documents: "
    ++ String.intercalate ", " indexed

/-- `get_status` (src/app.py). -/
def getStatus (st : AppState) : String :=
  let indexed := getIndexedFiles st.sys.storage
  if indexed.isEmpty then noDocsMsg else indexedMsg indexed

/-- `initialize_agent` (src/app.py): rebuild all tools from the data
directory, rebuild the tool index, rebind the agent.  A build failure
propagates (the globals keep their previous values). -/
def initializeAgent (seg : Seg) (st : AppState) :
    Except String String × AppState :=
  let pdfFiles := getPdfFiles st
  if pdfFiles.isEmpty then
    (.ok noDocsMsg, { st with agent := none, toolIndex := none })
  else
    let pdfPaths := pdfFiles.map (fun n => "data/" ++ n)
    match buildAllDocTools seg st.sys pdfPaths with
    | (.error e, sys') => (.error e, { st with sys := sys' })
    | (.ok allTools, sys') =>
        let indexed := getIndexedFiles sys'.storage
        (.ok (indexedMsg indexed),
         { st with
             sys := sys'
             toolIndex := some allTools
             agent := some { tools := allTools } })

/-- Basename of an uploaded temp path (`Path(file.name).name`). -/
def baseName (p : String) : String :=
  String.mk (fileNameChars p.data)

/-- Copy one uploaded file into the data directory: same-named files are
overwritten in place, new names are appended. -/
def copyIn (dataFiles : List String) (name : String) : List String :=
  if name ∈ dataFiles then dataFiles else dataFiles ++ [name]

/-- Copy all uploaded files into the data directory, in upload order. -/
def copyAll (dataFiles : List String) (files : List String) : List String :=
  files.foldl (fun acc f => copyIn acc (baseName f)) dataFiles

/-- The capacity-rejection message of `upload_files` (src/app.py). -/
def capacityMsg (existingCount : Nat) : String :=
  "Error: Maximum 5 documents allowed. Currently have "
    ++ toString existingCount ++ "."

/-- `upload_files` (src/app.py): reject when existing pdf count plus
uploaded file count exceeds 5, before copying anything; otherwise copy the
files and reinitialize the agent. -/
def uploadFiles (seg : Seg) (st : AppState) (files : List String) :
    Except String String × AppState :=
  if files.isEmpty then (.ok (getStatus st), st)
  else
    let existing := st.dataFiles.filter (fun n => isPdfName n)
    if 5 < existing.length + files.length then
      (.ok (capacityMsg existing.length), st)
    else
      let st1 := { st with dataFiles := copyAll st.dataFiles files }
      initializeAgent seg st1

/-- `clear_documents` (src/app.py): unlink every pdf in the data
directory, delete the whole storage subtree, unbind the agent and the tool
index. -/
def clearDocuments (st : AppState) : String × AppState :=
  ("All documents cleared.",
   { st with
       dataFiles := st.dataFiles.filter (fun n => !isPdfName n)
       sys := { st.sys with storage := none }
       agent := none
       toolIndex := none })

/-- The fixed no-agent reply of `respond` (src/app.py). -/
def pleaseUploadMsg : String :=
  "Please upload documents first before asking questions."

/-- `respond` (src/app.py): the fixed reply when no agent is bound; a
language-model turn (src/agent.py `chat`, an opaque collaborator here)
otherwise, with exceptions converted to error text. -/
def respond (chatFn : Agent → String → Except String String)
    (st : AppState) (message : String) : String × AppState :=
  match st.agent with
  | none => (pleaseUploadMsg, st)
  | some a =>
      let st' := { st with llmCalls := st.llmCalls + 1 }
      match chatFn a message with
      | .ok r => (r, st')
      | .error e => ("Error: " ++ e, st')

/-- The application state at first startup: empty data directory, no
storage root, no bound agent. -/
def initState : AppState :=
  { dataFiles := []
    sys := { storage := none, segCalls := 0 }
    agent := none
    toolIndex := none
    llmCalls := 0 }

/-- The application states reachable through the exposed operations. -/
inductive Reachable : AppState → Prop where
  | init : Reachable initState
  | upload (seg : Seg) (files : List String) {st : AppState} :
      Reachable st → Reachable (uploadFiles seg st files).2
  | clear {st : AppState} :
      Reachable st → Reachable (clearDocuments st).2
  | startup (seg : Seg) {st : AppState} :
      Reachable st → Reachable (initializeAgent seg st).2
  | chatTurn (chatFn : Agent → String → Except String String)
      (message : String) {st : AppState} :
      Reachable st → Reachable (respond chatFn st message).2

/-- Whether the cache entry for a document name is present and intact: the
storage root exists, the document's subtree exists, both the vector and the
summary subtrees are present, and both deserialize. -/
def entryIntact (st : Option StorageData) (name : String) : Bool :=
  match st with
  | none => false
  | some data =>
    match lookupDir data.docDirs name with
    | none => false
    | some d =>
      match d.vector, d.summary with
      | some vt, some su => vt.ok && su.ok
      | _, _ => false

/-- The characters of the `.pdf` extension. -/
def pdfExt : List Char := ['.', 'p', 'd', 'f']

/-! ### Concrete fixtures used by witnesses and counterexamples -/

/-- A segmentation service that succeeds on every document. -/
def segAllOk : Seg := fun _ => .ok ["segment"]

/-- A segmentation service that fails on `data/bad.pdf` only. -/
def segC1 : Seg := fun p =>
  if p = "data/bad.pdf" then .error "unable to read" else .ok ["segment"]

/-- A language-model turn that always answers. -/
def chatW : Agent → String → Except String String := fun _ _ => .ok "answer"

/-- An application state with five pdf documents in the data directory. -/
def st5 : AppState :=
  { dataFiles := ["a.pdf", "b.pdf", "c.pdf", "d.pdf", "e.pdf"]
    sys := { storage := none, segCalls := 0 }
    agent := none
    toolIndex := none
    llmCalls := 0 }

/-- An intact persisted cache entry over one segment. -/
def entryOk : DocStorage :=
  { vector := some { ok := true, nodes := ["segment"] }
    summary := some { ok := true, nodes := ["segment"] } }

/-- The system state produced by ingesting `data/a.pdf` from scratch. -/
def sysW : Sys :=
  { storage := some { docDirs := [("a", entryOk)], manifest := some ["a"] }
    segCalls := 1 }

/-- The tools produced by ingesting `data/a.pdf`. -/
def toolsW : List QueryEngineTool :=
  [mkVectorTool "a" ["segment"], mkSummaryTool "a" ["segment"]]

/-- The system state produced by ingesting `data/a.pdf` and `data/b.pdf`
from scratch. -/
def sysC6 : Sys :=
  { storage := some
      { docDirs := [("a", entryOk), ("b", entryOk)]
        manifest := some ["a", "b"] }
    segCalls := 2 }

/-- The tools produced by ingesting `data/a.pdf` and `data/b.pdf`. -/
def toolsC6 : List QueryEngineTool :=
  [mkVectorTool "a" ["segment"], mkSummaryTool "a" ["segment"],
   mkVectorTool "b" ["segment"], mkSummaryTool "b" ["segment"]]

/-- A storage root holding one corrupt cache entry: the vector subtree does
not deserialize. -/
def stC7 : Option StorageData :=
  some
    { docDirs :=
        [("d", { vector := some { ok := false, nodes := [] }
                 summary := some { ok := true, nodes := ["x"] } })]
      manifest := none }

/-! ## Storage lemmas -/

theorem storage_bumpSeg (sys : Sys) : (bumpSeg sys).storage = sys.storage := rfl

theorem lookupDir_append (l1 l2 : List (String × DocStorage)) (q : String) :
    lookupDir (l1 ++ l2) q =
      match lookupDir l1 q with
      | some d => some d
      | none => lookupDir l2 q := by
  induction l1 with
  | nil => simp [lookupDir]
  | cons e rest ih =>
    obtain ⟨k, dd⟩ := e
    by_cases hk : k = q <;> simp [lookupDir, hk, ih]

theorem lookupDir_filter_ne (dirs : List (String × DocStorage)) (n q : String)
    (h : q ≠ n) :
    lookupDir (dirs.filter (fun e => e.1 ≠ n)) q = lookupDir dirs q := by
  induction dirs with
  | nil => rfl
  | cons e rest ih =>
    obtain ⟨k, dd⟩ := e
    by_cases hk : k = n
    · subst hk
      have hkq : ¬ (k = q) := fun hq => h hq.symm
      rw [List.filter_cons_of_neg (by simp)]
      rw [ih]
      simp [lookupDir, hkq]
    · rw [List.filter_cons_of_pos (by simp [hk])]
      by_cases hq : k = q
      · simp [lookupDir, hq]
      · simp only [lookupDir, if_neg hq]
        exact ih

theorem lookupDir_filter_self (dirs : List (String × DocStorage)) (n : String) :
    lookupDir (dirs.filter (fun e => e.1 ≠ n)) n = none := by
  induction dirs with
  | nil => rfl
  | cons e rest ih =>
    obtain ⟨k, dd⟩ := e
    by_cases hk : k = n
    · rw [List.filter_cons_of_neg (by simp [hk])]
      exact ih
    · rw [List.filter_cons_of_pos (by simp [hk])]
      simp only [lookupDir, if_neg hk]
      exact ih

theorem lookupDir_setDocDir (dirs : List (String × DocStorage)) (n m : String)
    (d : DocStorage) :
    lookupDir (setDocDir dirs n d) m =
      if m = n then some d else lookupDir dirs m := by
  unfold setDocDir
  rw [lookupDir_append]
  by_cases h : m = n
  · subst h
    rw [lookupDir_filter_self]
    simp [lookupDir]
  · have hnm : ¬ (n = m) := fun hh => h hh.symm
    rw [lookupDir_filter_ne dirs n m h, if_neg h]
    cases hl : lookupDir dirs m <;> simp [lookupDir, hnm]

theorem loadDocIndex_saveDocIndex (sys : Sys) (n : String)
    (v s : List String) (m : String) :
    loadDocIndex (saveDocIndex sys n v s).storage m =
      if m = n then some (v, s) else loadDocIndex sys.storage m := by
  cases hst : sys.storage with
  | none =>
    simp only [saveDocIndex, hst, loadDocIndex, lookupDir]
    by_cases h : m = n
    · subst h
      simp
    · have hnm : ¬ (n = m) := fun hh => h hh.symm
      simp [hnm, h]
  | some data =>
    simp only [saveDocIndex, hst, loadDocIndex, lookupDir_setDocDir]
    by_cases h : m = n
    · simp [h]
    · simp [h]

theorem loadDocIndex_saveManifestS (sys : Sys) (l : List String) (m : String) :
    loadDocIndex (saveManifestS sys l).storage m = loadDocIndex sys.storage m := by
  cases hst : sys.storage with
  | none => simp [saveManifestS, hst, loadDocIndex, lookupDir]
  | some data => simp [saveManifestS, hst, loadDocIndex]

theorem loadManifest_saveManifestS (sys : Sys) (l : List String) :
    loadManifest (saveManifestS sys l).storage = l := by
  cases hst : sys.storage with
  | none => simp [saveManifestS, hst, loadManifest]
  | some data => simp [saveManifestS, hst, loadManifest]

theorem loadManifest_saveDocIndex (sys : Sys) (n : String)
    (v s : List String) :
    loadManifest (saveDocIndex sys n v s).storage = loadManifest sys.storage := by
  cases hst : sys.storage with
  | none => simp [saveDocIndex, hst, loadManifest]
  | some data => simp [saveDocIndex, hst, loadManifest]

theorem saveManifestS_idem (sys : Sys) (l : List String) :
    saveManifestS (saveManifestS sys l) l = saveManifestS sys l := by
  cases sys with
  | mk st sc => cases st <;> rfl

/-! ## Per-document rebuild lemmas -/

theorem rebuild_hit (seg : Seg) (sys : Sys) (p : String) (v s : List String)
    (h : loadDocIndex sys.storage (getDoc p) = some (v, s)) :
    rebuildToolsForDocument seg sys p =
      (.ok [mkVectorTool (getDoc p) v, mkSummaryTool (getDoc p) s], sys) := by
  simp [rebuildToolsForDocument, h]

theorem rebuild_miss_err (seg : Seg) (sys : Sys) (p : String) (e : String)
    (h1 : loadDocIndex sys.storage (getDoc p) = none)
    (h2 : seg p = .error e) :
    rebuildToolsForDocument seg sys p = (.error e, bumpSeg sys) := by
  simp [rebuildToolsForDocument, h1, buildDocTools, h2]

theorem rebuild_miss_ok (seg : Seg) (sys : Sys) (p : String)
    (nodes : List String)
    (h1 : loadDocIndex sys.storage (getDoc p) = none)
    (h2 : seg p = .ok nodes) :
    rebuildToolsForDocument seg sys p =
      (.ok [mkVectorTool (getDoc p) nodes, mkSummaryTool (getDoc p) nodes],
       saveDocIndex (bumpSeg sys) (getDoc p) nodes nodes) := by
  simp [rebuildToolsForDocument, h1, buildDocTools, h2]

theorem rebuild_manifest (seg : Seg) (sys : Sys) (p : String)
    (r : Except String (List QueryEngineTool)) (sys' : Sys)
    (h : rebuildToolsForDocument seg sys p = (r, sys')) :
    loadManifest sys'.storage = loadManifest sys.storage := by
  cases hl : loadDocIndex sys.storage (getDoc p) with
  | some pr =>
    obtain ⟨v, s⟩ := pr
    rw [rebuild_hit seg sys p v s hl] at h
    cases h
    rfl
  | none =>
    cases hs : seg p with
    | error e =>
      rw [rebuild_miss_err seg sys p e hl hs] at h
      cases h
      rfl
    | ok nodes =>
      rw [rebuild_miss_ok seg sys p nodes hl hs] at h
      cases h
      rw [loadManifest_saveDocIndex]
      rfl

theorem rebuild_preserves_load (seg : Seg) (sys : Sys) (p : String)
    (r : Except String (List QueryEngineTool)) (sys' : Sys)
    (h : rebuildToolsForDocument seg sys p = (r, sys'))
    (m : String) (x : List String × List String)
    (hm : loadDocIndex sys.storage m = some x) :
    loadDocIndex sys'.storage m = some x := by
  cases hl : loadDocIndex sys.storage (getDoc p) with
  | some pr =>
    obtain ⟨v, s⟩ := pr
    rw [rebuild_hit seg sys p v s hl] at h
    cases h
    exact hm
  | none =>
    cases hs : seg p with
    | error e =>
      rw [rebuild_miss_err seg sys p e hl hs] at h
      cases h
      exact hm
    | ok nodes =>
      rw [rebuild_miss_ok seg sys p nodes hl hs] at h
      cases h
      rw [loadDocIndex_saveDocIndex]
      by_cases hmp : m = getDoc p
      · rw [hmp] at hm
        rw [hm] at hl
        cases hl
      · rw [if_neg hmp]
        exact hm

/-! ## Batch-loop lemmas -/

theorem go_preserves_load (seg : Seg) :
    ∀ (paths : List String) (acc : List QueryEngineTool) (idx : List String)
      (sys : Sys) (r : Except String (List QueryEngineTool)) (sys' : Sys),
      buildAllGo seg paths acc idx sys = (r, sys') →
      ∀ (m : String) (x : List String × List String),
        loadDocIndex sys.storage m = some x →
        loadDocIndex sys'.storage m = some x := by
  intro paths
  induction paths with
  | nil =>
    intro acc idx sys r sys' h m x hm
    simp only [buildAllGo] at h
    cases h
    rw [loadDocIndex_saveManifestS]
    exact hm
  | cons p rest ih =>
    intro acc idx sys r sys' h m x hm
    simp only [buildAllGo] at h
    cases hr : rebuildToolsForDocument seg sys p with
    | mk r1 sys1 =>
      rw [hr] at h
      cases r1 with
      | error e =>
        simp at h
        obtain ⟨h1, h2⟩ := h
        subst h2
        exact rebuild_preserves_load seg sys p (.error e) sys1 hr m x hm
      | ok tp =>
        simp only at h
        have hm1 : loadDocIndex sys1.storage m = some x :=
          rebuild_preserves_load seg sys p (.ok tp) sys1 hr m x hm
        exact ih (acc ++ tp) (idx ++ [getDoc p]) sys1 r sys' h m x hm1

theorem go_manifest_ok (seg : Seg) :
    ∀ (paths : List String) (acc : List QueryEngineTool) (idx : List String)
      (sys : Sys) (tools : List QueryEngineTool) (sys' : Sys),
      buildAllGo seg paths acc idx sys = (.ok tools, sys') →
      loadManifest sys'.storage = idx ++ paths.map getDoc := by
  intro paths
  induction paths with
  | nil =>
    intro acc idx sys tools sys' h
    simp only [buildAllGo] at h
    cases h
    rw [loadManifest_saveManifestS]
    simp
  | cons p rest ih =>
    intro acc idx sys tools sys' h
    simp only [buildAllGo] at h
    cases hr : rebuildToolsForDocument seg sys p with
    | mk r1 sys1 =>
      rw [hr] at h
      cases r1 with
      | error e => simp at h
      | ok tp =>
        simp only at h
        have := ih (acc ++ tp) (idx ++ [getDoc p]) sys1 tools sys' h
        rw [this]
        simp

theorem go_manifest_err (seg : Seg) :
    ∀ (paths : List String) (acc : List QueryEngineTool) (idx : List String)
      (sys : Sys) (e : String) (sys' : Sys),
      buildAllGo seg paths acc idx sys = (.error e, sys') →
      loadManifest sys'.storage = loadManifest sys.storage := by
  intro paths
  induction paths with
  | nil =>
    intro acc idx sys e sys' h
    simp [buildAllGo] at h
  | cons p rest ih =>
    intro acc idx sys e sys' h
    simp only [buildAllGo] at h
    cases hr : rebuildToolsForDocument seg sys p with
    | mk r1 sys1 =>
      rw [hr] at h
      cases r1 with
      | error e1 =>
        simp at h
        obtain ⟨h1, h2⟩ := h
        subst h2
        exact rebuild_manifest seg sys p (.error e1) sys1 hr
      | ok tp =>
        simp only at h
        have h2 := ih (acc ++ tp) (idx ++ [getDoc p]) sys1 e sys' h
        rw [h2]
        exact rebuild_manifest seg sys p (.ok tp) sys1 hr

theorem go_ok_shape (seg : Seg) :
    ∀ (paths : List String) (acc : List QueryEngineTool) (idx : List String)
      (sys : Sys) (tools : List QueryEngineTool) (sys' : Sys),
      buildAllGo seg paths acc idx sys = (.ok tools, sys') →
      ∃ sysPre, sys' = saveManifestS sysPre (idx ++ paths.map getDoc) := by
  intro paths
  induction paths with
  | nil =>
    intro acc idx sys tools sys' h
    simp only [buildAllGo] at h
    cases h
    exact ⟨sys, by simp⟩
  | cons p rest ih =>
    intro acc idx sys tools sys' h
    simp only [buildAllGo] at h
    cases hr : rebuildToolsForDocument seg sys p with
    | mk r1 sys1 =>
      rw [hr] at h
      cases r1 with
      | error e => simp at h
      | ok tp =>
        simp only at h
        obtain ⟨sysPre, hPre⟩ := ih (acc ++ tp) (idx ++ [getDoc p]) sys1 tools sys' h
        refine ⟨sysPre, ?_⟩
        rw [hPre]
        simp

theorem go_replay (seg : Seg) (sysf sys2 : Sys) (tools : List QueryEngineTool)
    (hsub : ∀ (m : String) (x : List String × List String),
      loadDocIndex sysf.storage m = some x →
      loadDocIndex sys2.storage m = some x) :
    ∀ (paths : List String) (acc : List QueryEngineTool) (idx : List String)
      (sys : Sys),
      buildAllGo seg paths acc idx sys = (.ok tools, sysf) →
      buildAllGo seg paths acc idx sys2 =
        (.ok tools, saveManifestS sys2 (idx ++ paths.map getDoc)) := by
  intro paths
  induction paths with
  | nil =>
    intro acc idx sys h
    simp only [buildAllGo] at h ⊢
    simp at h
    obtain ⟨h1, _⟩ := h
    subst h1
    simp
  | cons p rest ih =>
    intro acc idx sys h
    simp only [buildAllGo] at h
    cases hr : rebuildToolsForDocument seg sys p with
    | mk r1 sys1 =>
      rw [hr] at h
      cases r1 with
      | error e => simp at h
      | ok tp =>
        simp only at h
        -- the entry for this document is loadable in the final state and
        -- rebuilds exactly the tools of the first run
        have key : ∃ v s, loadDocIndex sysf.storage (getDoc p) = some (v, s) ∧
            tp = [mkVectorTool (getDoc p) v, mkSummaryTool (getDoc p) s] := by
          cases hl : loadDocIndex sys.storage (getDoc p) with
          | some pr =>
            obtain ⟨v, s⟩ := pr
            rw [rebuild_hit seg sys p v s hl] at hr
            cases hr
            refine ⟨v, s, ?_, rfl⟩
            exact go_preserves_load seg rest _ _ _ _ _ h (getDoc p) (v, s) hl
          | none =>
            cases hs : seg p with
            | error e =>
              rw [rebuild_miss_err seg sys p e hl hs] at hr
              cases hr
            | ok nodes =>
              rw [rebuild_miss_ok seg sys p nodes hl hs] at hr
              cases hr
              refine ⟨nodes, nodes, ?_, rfl⟩
              refine go_preserves_load seg rest _ _ _ _ _ h (getDoc p)
                (nodes, nodes) ?_
              rw [loadDocIndex_saveDocIndex]
              simp
        obtain ⟨v, s, hload, htp⟩ := key
        have hload2 : loadDocIndex sys2.storage (getDoc p) = some (v, s) :=
          hsub (getDoc p) (v, s) hload
        simp only [buildAllGo]
        rw [rebuild_hit seg sys2 p v s hload2, ← htp]
        show buildAllGo seg rest (acc ++ tp) (idx ++ [getDoc p]) sys2 =
          (.ok tools, saveManifestS sys2 (idx ++ (p :: rest).map getDoc))
        rw [ih (acc ++ tp) (idx ++ [getDoc p]) sys1 h]
        simp

/-! ## Application-level helper lemmas -/

theorem initializeAgent_dataFiles (seg : Seg) (st : AppState) :
    (initializeAgent seg st).2.dataFiles = st.dataFiles := by
  unfold initializeAgent
  by_cases he : (getPdfFiles st).isEmpty
  · simp [he]
  · simp only [he, Bool.false_eq_true, if_false]
    cases hb : buildAllDocTools seg st.sys
        ((getPdfFiles st).map (fun n => "data/" ++ n)) with
    | mk r sys' => cases r <;> simp

theorem filter_not_filter {α : Type} (p : α → Bool) (l : List α) :
    (l.filter (fun a => !p a)).filter p = [] := by
  induction l with
  | nil => rfl
  | cons a l ih =>
    by_cases h : p a
    · rw [List.filter_cons_of_neg (by simp [h])]
      exact ih
    · rw [List.filter_cons_of_pos (by simp [h]), List.filter_cons_of_neg (by simp [h])]
      exact ih

theorem filter_copyIn_le (p : String → Bool) (df : List String) (n : String) :
    ((copyIn df n).filter p).length ≤ (df.filter p).length + 1 := by
  unfold copyIn
  by_cases h : n ∈ df
  · simp [h]
  · rw [if_neg h, List.filter_append]
    simp only [List.length_append]
    have : ([n].filter p).length ≤ 1 := by
      by_cases hp : p n <;> simp [hp]
    omega

theorem filter_copyAll_le (p : String → Bool) :
    ∀ (files : List String) (df : List String),
      ((copyAll df files).filter p).length ≤ (df.filter p).length + files.length := by
  intro files
  induction files with
  | nil => intro df; simp [copyAll]
  | cons f fs ih =>
    intro df
    have h1 : ((copyAll (copyIn df (baseName f)) fs).filter p).length ≤
        ((copyIn df (baseName f)).filter p).length + fs.length := ih _
    have h2 := filter_copyIn_le p df (baseName f)
    have h3 : copyAll df (f :: fs) = copyAll (copyIn df (baseName f)) fs := rfl
    rw [h3]
    simp only [List.length_cons]
    omega

theorem respond_frame (chatFn : Agent → String → Except String String)
    (st : AppState) (m : String) :
    (respond chatFn st m).2.dataFiles = st.dataFiles ∧
      (respond chatFn st m).2.sys = st.sys := by
  cases ha : st.agent with
  | none => simp [respond, ha]
  | some a => cases hc : chatFn a m <;> simp [respond, ha, hc]

theorem initializeAgent_manifest_le (seg : Seg) (st : AppState)
    (h1 : (getPdfFiles st).length ≤ 5)
    (h2 : (loadManifest st.sys.storage).length ≤ 5) :
    (loadManifest (initializeAgent seg st).2.sys.storage).length ≤ 5 := by
  unfold initializeAgent
  by_cases he : (getPdfFiles st).isEmpty
  · simpa [he] using h2
  · simp only [he, Bool.false_eq_true, if_false]
    cases hb : buildAllDocTools seg st.sys
        ((getPdfFiles st).map (fun n => "data/" ++ n)) with
    | mk r sys' =>
      cases r with
      | error e =>
        simp only
        have := go_manifest_err seg ((getPdfFiles st).map (fun n => "data/" ++ n))
          [] [] st.sys e sys' hb
        simpa [this] using h2
      | ok tools =>
        simp only
        have := go_manifest_ok seg ((getPdfFiles st).map (fun n => "data/" ++ n))
          [] [] st.sys tools sys' hb
        rw [this]
        simpa using h1

/-! ## Path and identity lemmas -/

theorem foldl_fileName_aux :
    ∀ (cs : List Char) (acc : List Char), '/' ∉ cs →
      cs.foldl (fun acc c => if c = '/' then [] else acc ++ [c]) acc = acc ++ cs := by
  intro cs
  induction cs with
  | nil => intro acc _; simp
  | cons c rest ih =>
    intro acc h
    have hc : ¬ (c = '/') := fun hh => h (by simp [hh])
    simp only [List.foldl_cons, if_neg hc]
    rw [ih (acc ++ [c]) (fun hm => h (List.mem_cons_of_mem _ hm))]
    simp

theorem fileNameChars_noSlash (cs : List Char) (h : '/' ∉ cs) :
    fileNameChars cs = cs := by
  unfold fileNameChars
  rw [foldl_fileName_aux cs [] h]
  simp

theorem lastDotIdx_append_pdf (b : List Char) :
    lastDotIdx (b ++ pdfExt) = some b.length := by
  induction b with
  | nil => rfl
  | cons c rest ih =>
    show (match lastDotIdx (rest ++ pdfExt) with
      | some i => some (i + 1)
      | none => if c = '.' then some 0 else none) = some (rest.length + 1)
    rw [ih]

theorem stemChars_append_pdf (b : List Char) (hb : b ≠ []) :
    stemChars (b ++ pdfExt) = b := by
  unfold stemChars
  rw [lastDotIdx_append_pdf]
  have hlen : (b ++ pdfExt).length = b.length + 4 := by simp [pdfExt]
  have hpos : 0 < b.length := List.length_pos.mpr hb
  have hcond : b.length + 1 < (b ++ pdfExt).length := by rw [hlen]; omega
  show (if 0 < b.length ∧ b.length + 1 < (b ++ pdfExt).length
      then List.take b.length (b ++ pdfExt) else b ++ pdfExt) = b
  rw [if_pos ⟨hpos, hcond⟩]
  exact List.take_left b pdfExt

theorem getDoc_pdfName (b : List Char) (hb : b ≠ []) (hs : '/' ∉ b) :
    getDoc (String.mk (b ++ pdfExt)) = String.mk b := by
  unfold getDoc
  have hslash : '/' ∉ b ++ pdfExt := by
    intro hm
    rcases List.mem_append.mp hm with h1 | h2
    · exact hs h1
    · simp [pdfExt] at h2
  show String.mk (stemChars (fileNameChars (b ++ pdfExt))) = String.mk b
  rw [fileNameChars_noSlash _ hslash, stemChars_append_pdf b hb]

/-! ## Reachability invariant lemmas -/

theorem clearDocuments_inv (st : AppState) :
    (getPdfFiles (clearDocuments st).2).length ≤ 5 ∧
      (loadManifest (clearDocuments st).2.sys.storage).length ≤ 5 := by
  constructor
  · show ((st.dataFiles.filter (fun n => !isPdfName n)).filter
      (fun n => isPdfName n)).length ≤ 5
    rw [filter_not_filter]
    simp
  · show (loadManifest none).length ≤ 5
    simp [loadManifest]

theorem initializeAgent_inv (seg : Seg) (st : AppState)
    (h1 : (getPdfFiles st).length ≤ 5)
    (h2 : (loadManifest st.sys.storage).length ≤ 5) :
    (getPdfFiles (initializeAgent seg st).2).length ≤ 5 ∧
      (loadManifest (initializeAgent seg st).2.sys.storage).length ≤ 5 := by
  constructor
  · have hd := initializeAgent_dataFiles seg st
    show ((initializeAgent seg st).2.dataFiles.filter (fun n => isPdfName n)).length ≤ 5
    rw [hd]
    exact h1
  · exact initializeAgent_manifest_le seg st h1 h2

theorem uploadFiles_inv (seg : Seg) (st : AppState) (files : List String)
    (h1 : (getPdfFiles st).length ≤ 5)
    (h2 : (loadManifest st.sys.storage).length ≤ 5) :
    (getPdfFiles (uploadFiles seg st files).2).length ≤ 5 ∧
      (loadManifest (uploadFiles seg st files).2.sys.storage).length ≤ 5 := by
  unfold uploadFiles
  by_cases hfe : files.isEmpty
  · simp only [hfe, if_true]
    exact ⟨h1, h2⟩
  · simp only [hfe, Bool.false_eq_true, if_false]
    by_cases hgt : 5 < (st.dataFiles.filter (fun n => isPdfName n)).length + files.length
    · rw [if_pos hgt]
      exact ⟨h1, h2⟩
    · rw [if_neg hgt]
      have hcnt : ((copyAll st.dataFiles files).filter (fun n => isPdfName n)).length ≤ 5 := by
        have := filter_copyAll_le (fun n => isPdfName n) files st.dataFiles
        omega
      exact initializeAgent_inv seg
        { st with dataFiles := copyAll st.dataFiles files } hcnt h2

theorem respond_inv (chatFn : Agent → String → Except String String)
    (st : AppState) (m : String)
    (h1 : (getPdfFiles st).length ≤ 5)
    (h2 : (loadManifest st.sys.storage).length ≤ 5) :
    (getPdfFiles (respond chatFn st m).2).length ≤ 5 ∧
      (loadManifest (respond chatFn st m).2.sys.storage).length ≤ 5 := by
  obtain ⟨hd, hs⟩ := respond_frame chatFn st m
  constructor
  · show ((respond chatFn st m).2.dataFiles.filter (fun n => isPdfName n)).length ≤ 5
    rw [hd]
    exact h1
  · rw [hs]
    exact h2

theorem reachable_inv (st : AppState) (h : Reachable st) :
    (getPdfFiles st).length ≤ 5 ∧
      (loadManifest st.sys.storage).length ≤ 5 := by
  induction h with
  | init => exact ⟨by simp [getPdfFiles, initState], by simp [initState, loadManifest]⟩
  | upload seg files hst ih => exact uploadFiles_inv seg _ files ih.1 ih.2
  | clear hst ih => exact clearDocuments_inv _
  | startup seg hst ih => exact initializeAgent_inv seg _ ih.1 ih.2
  | chatTurn chatFn message hst ih => exact respond_inv chatFn _ message ih.1 ih.2

/-! ## Claims -/

/-- C1 counterexample: in the batch `a.pdf, bad.pdf, c.pdf`, the
segmentation failure on `bad.pdf` is raised for the whole batch, the
remaining document `c.pdf` is never processed (no cache entry), and the
manifest is not written — refuting the claim that the error is reported
for that document only while the rest of the batch is still processed. -/
theorem batch_error_not_isolated :
    (buildAllDocTools segC1 ⟨none, 0⟩
        ["data/a.pdf", "data/bad.pdf", "data/c.pdf"]).1 = .error "unable to read" ∧
    loadDocIndex (buildAllDocTools segC1 ⟨none, 0⟩
        ["data/a.pdf", "data/bad.pdf", "data/c.pdf"]).2.storage "c" = none ∧
    getIndexedFiles (buildAllDocTools segC1 ⟨none, 0⟩
        ["data/a.pdf", "data/bad.pdf", "data/c.pdf"]).2.storage = [] :=
  ⟨rfl, rfl, rfl⟩

/-- C1 (amended): a DocumentLoadError on one (uncached) document aborts the
entire ingestion batch: `build_all_doc_tools` propagates the error, no
later document of the batch is processed, and the manifest is not
rewritten (only the segmentation counter of the failing call moves). -/
theorem batch_abort_on_doc_error (seg : Seg) (sys : Sys) (p : String)
    (post : List String) (e : String)
    (h1 : loadDocIndex sys.storage (getDoc p) = none)
    (h2 : seg p = .error e) :
    buildAllDocTools seg sys (p :: post) = (.error e, bumpSeg sys) := by
  show buildAllGo seg (p :: post) [] [] sys = (.error e, bumpSeg sys)
  simp only [buildAllGo]
  rw [rebuild_miss_err seg sys p e h1 h2]

/-- C1's amended-claim witness at a concrete failing batch. -/
theorem batch_abort_on_doc_error_witness :
    buildAllDocTools segC1 ⟨none, 0⟩ ["data/bad.pdf", "data/c.pdf"] =
      (.error "unable to read", bumpSeg ⟨none, 0⟩) :=
  batch_abort_on_doc_error segC1 ⟨none, 0⟩ "data/bad.pdf" ["data/c.pdf"]
    "unable to read" rfl rfl

/-- C2 counterexample: with five pdfs in the data directory, re-uploading
`a.pdf` (same name, so it would overwrite) yields a resulting corpus of 5
documents — within the cap — yet `upload_files` rejects with the capacity
error, refuting the claim's converse direction. -/
theorem upload_within_cap_rejected :
    ((copyAll st5.dataFiles ["upload/a.pdf"]).filter
        (fun n => isPdfName n)).length = 5 ∧
    uploadFiles segAllOk st5 ["upload/a.pdf"] = (.ok (capacityMsg 5), st5) :=
  ⟨rfl, rfl⟩

/-- C2 (amended): a nonempty ingest request is rejected with the capacity
error — with no state mutated — exactly when the count of existing pdf
files plus the count of uploaded files exceeds 5; this sum can exceed the
resulting corpus size when an uploaded filename collides with an existing
one, so such a request may be rejected even though the resulting corpus
would hold at most 5 documents.  When the sum is at most 5 the files are
copied (the request is not rejected on capacity grounds). -/
theorem upload_capacity_check (seg : Seg) (st : AppState) (files : List String)
    (hne : files ≠ []) :
    (5 < (st.dataFiles.filter (fun n => isPdfName n)).length + files.length →
      uploadFiles seg st files =
        (.ok (capacityMsg (st.dataFiles.filter (fun n => isPdfName n)).length), st)) ∧
    ((st.dataFiles.filter (fun n => isPdfName n)).length + files.length ≤ 5 →
      (uploadFiles seg st files).2.dataFiles = copyAll st.dataFiles files) := by
  have hfe : files.isEmpty = false := by
    cases files with
    | nil => exact absurd rfl hne
    | cons a l => rfl
  constructor
  · intro hgt
    unfold uploadFiles
    simp only [hfe, Bool.false_eq_true, if_false]
    rw [if_pos hgt]
  · intro hle
    have hngt : ¬ 5 < (st.dataFiles.filter (fun n => isPdfName n)).length
        + files.length := by omega
    unfold uploadFiles
    simp only [hfe, Bool.false_eq_true, if_false]
    rw [if_neg hngt]
    exact initializeAgent_dataFiles seg _

/-- C2's amended-claim witness: uploading one pdf into an empty corpus is
within capacity and the file is copied. -/
theorem upload_capacity_check_witness :
    (uploadFiles segAllOk initState ["tmp/x.pdf"]).2.dataFiles =
      copyAll initState.dataFiles ["tmp/x.pdf"] :=
  (upload_capacity_check segAllOk initState ["tmp/x.pdf"] (by decide)).2
    (by decide)

/-- C3: ingestion is idempotent — if a first ingest of a batch succeeds
with tool set `tools1` and state `sys1`, re-ingesting the same batch
returns the identical tool set (same names, descriptions and retrieval
policies) and the identical state, every document being served from the
document cache; in particular the segmentation service is not invoked
again (`segCalls` unchanged). -/
theorem ingest_idempotent (seg : Seg) (sys0 : Sys) (paths : List String)
    (tools1 : List QueryEngineTool) (sys1 : Sys)
    (h : buildAllDocTools seg sys0 paths = (.ok tools1, sys1)) :
    buildAllDocTools seg sys1 paths = (.ok tools1, sys1) ∧
      (buildAllDocTools seg sys1 paths).2.segCalls = sys1.segCalls := by
  have h0 : buildAllGo seg paths [] [] sys0 = (.ok tools1, sys1) := h
  have hrep := go_replay seg sys1 sys1 tools1 (fun m x hm => hm) paths [] [] sys0 h0
  obtain ⟨sysPre, hPre⟩ := go_ok_shape seg paths [] [] sys0 tools1 sys1 h0
  simp only [List.nil_append] at hrep hPre
  have heq : saveManifestS sys1 (paths.map getDoc) = sys1 := by
    rw [hPre, saveManifestS_idem]
  have hmain : buildAllDocTools seg sys1 paths = (.ok tools1, sys1) := by
    show buildAllGo seg paths [] [] sys1 = (.ok tools1, sys1)
    rw [hrep, heq]
  exact ⟨hmain, by rw [hmain]⟩

/-- C3's witness: re-ingesting `data/a.pdf` after a successful first
ingest reproduces the same tools and state. -/
theorem ingest_idempotent_witness :
    buildAllDocTools segAllOk sysW ["data/a.pdf"] = (.ok toolsW, sysW) ∧
      (buildAllDocTools segAllOk sysW ["data/a.pdf"]).2.segCalls = sysW.segCalls :=
  ingest_idempotent segAllOk ⟨none, 0⟩ ["data/a.pdf"] toolsW sysW rfl

/-- C4: in every application state reachable through the exposed
operations (upload, clear, startup re-initialization, chat turns), the
persisted manifest lists at most 5 document identities, however many
document paths are passed to the upload operation. -/
theorem manifest_le_cap (st : AppState) (h : Reachable st) :
    (getIndexedFiles st.sys.storage).length ≤ 5 :=
  (reachable_inv st h).2

/-- C4's witness at the initial state. -/
theorem manifest_le_cap_witness :
    (getIndexedFiles initState.sys.storage).length ≤ 5 :=
  manifest_le_cap initState Reachable.init

/-- C5: document identities are pairwise distinct within a batch of
pairwise-distinct pdf filenames: `get_doc` strips the `.pdf` extension, and
on filenames of the form `base ++ ".pdf"` with nonempty slash-free base
this map is injective, so the identity list has no duplicates. -/
theorem corpus_identities_nodup (names : List String)
    (hpdf : ∀ n ∈ names, ∃ b : List Char,
      b ≠ [] ∧ '/' ∉ b ∧ n = String.mk (b ++ pdfExt))
    (hnd : names.Nodup) : (names.map getDoc).Nodup := by
  refine List.Nodup.map_on ?_ hnd
  intro x hx y hy hxy
  obtain ⟨b1, hb1, hs1, he1⟩ := hpdf x hx
  obtain ⟨b2, hb2, hs2, he2⟩ := hpdf y hy
  subst he1
  subst he2
  rw [getDoc_pdfName b1 hb1 hs1, getDoc_pdfName b2 hb2 hs2] at hxy
  have hb : b1 = b2 := congrArg String.data hxy
  rw [hb]

/-- C5's witness on two concrete filenames. -/
theorem corpus_identities_nodup_witness :
    ((["report.pdf", "notes.pdf"] : List String).map getDoc).Nodup :=
  corpus_identities_nodup ["report.pdf", "notes.pdf"]
    (by
      intro n hn
      simp only [List.mem_cons, List.not_mem_nil, or_false] at hn
      rcases hn with h | h
      · subst h
        exact ⟨['r', 'e', 'p', 'o', 'r', 't'], by decide, by decide, rfl⟩
      · subst h
        exact ⟨['n', 'o', 't', 'e', 's'], by decide, by decide, rfl⟩)
    (by decide)

/-- C6: for a nonempty batch of at most 5 paths whose ingest succeeds, the
manifest holds exactly the identities derived from the input filenames in
batch order, and `status` reports them in that order. -/
theorem ingest_then_status (seg : Seg) (st : AppState) (paths : List String)
    (tools : List QueryEngineTool) (sys' : Sys)
    (hne : paths ≠ []) (hcap : paths.length ≤ 5)
    (h : buildAllDocTools seg st.sys paths = (.ok tools, sys')) :
    getIndexedFiles sys'.storage = paths.map getDoc ∧
    getStatus { st with sys := sys' } =
      "Indexed " ++ toString (paths.map getDoc).length ++ " documents: "
        ++ String.intercalate ", " (paths.map getDoc) := by
  have hman : loadManifest sys'.storage = [] ++ paths.map getDoc :=
    go_manifest_ok seg paths [] [] st.sys tools sys' h
  rw [List.nil_append] at hman
  have hgif : getIndexedFiles sys'.storage = paths.map getDoc := hman
  refine ⟨hgif, ?_⟩
  have hne2 : (paths.map getDoc).isEmpty = false := by
    cases paths with
    | nil => exact absurd rfl hne
    | cons a l => rfl
  show (if (getIndexedFiles sys'.storage).isEmpty then noDocsMsg
      else indexedMsg (getIndexedFiles sys'.storage)) = _
  rw [hgif]
  simp only [hne2, Bool.false_eq_true, if_false]
  rfl

/-- C6's witness: ingesting `data/a.pdf` and `data/b.pdf` then reading the
status reports the two identities in batch order. -/
theorem ingest_then_status_witness :
    getIndexedFiles sysC6.storage =
        (["data/a.pdf", "data/b.pdf"] : List String).map getDoc ∧
    getStatus { initState with sys := sysC6 } =
      "Indexed "
        ++ toString ((["data/a.pdf", "data/b.pdf"] : List String).map getDoc).length
        ++ " documents: "
        ++ String.intercalate ", "
            ((["data/a.pdf", "data/b.pdf"] : List String).map getDoc) :=
  ingest_then_status segAllOk initState ["data/a.pdf", "data/b.pdf"]
    toolsC6 sysC6 (by decide) (by decide) rfl

/-- C7: the cache `get` operation returns absent whenever the entry is not
intact — the storage root or the document subtree is missing, either the
vector or the summary subtree is missing, or either fails to deserialize —
so a corrupt cache entry is treated exactly as a cache miss and never
surfaces an error. -/
theorem load_corrupt_is_miss (st : Option StorageData) (name : String)
    (h : entryIntact st name = false) : loadDocIndex st name = none := by
  cases st with
  | none => rfl
  | some data =>
    cases hl : lookupDir data.docDirs name with
    | none => simp [loadDocIndex, hl]
    | some d =>
      cases hv : d.vector with
      | none => simp [loadDocIndex, hl, hv]
      | some vt =>
        cases hsu : d.summary with
        | none => simp [loadDocIndex, hl, hv, hsu]
        | some su =>
          have h2 : (vt.ok && su.ok) = false := by
            simpa [entryIntact, hl, hv, hsu] using h
          simp [loadDocIndex, hl, hv, hsu, h2]

/-- C7's witness: a persisted entry whose vector subtree fails to
deserialize loads as a cache miss. -/
theorem load_corrupt_is_miss_witness : loadDocIndex stC7 "d" = none :=
  load_corrupt_is_miss stC7 "d" rfl

/-- C8: while no agent is bound, `respond` returns the fixed
please-upload-documents message and leaves the whole application state —
including the language-model turn counter — untouched. -/
theorem respond_no_agent (chatFn : Agent → String → Except String String)
    (st : AppState) (message : String) (h : st.agent = none) :
    respond chatFn st message = (pleaseUploadMsg, st) := by
  simp [respond, h]

/-- C8's witness at the initial state. -/
theorem respond_no_agent_witness :
    respond chatW initState "hello" = (pleaseUploadMsg, initState) :=
  respond_no_agent chatW initState "hello" rfl

/-- C9: after `clear_documents`, the returned message is the cleared
notice, the storage subtree (cache and manifest) no longer exists, no pdf
document remains in the data directory, the agent is unbound, and
`get_status` reports the no-documents message. -/
theorem clear_then_status (st : AppState) :
    (clearDocuments st).1 = "All documents cleared." ∧
    (clearDocuments st).2.sys.storage = none ∧
    getPdfFiles (clearDocuments st).2 = [] ∧
    (clearDocuments st).2.agent = none ∧
    getStatus (clearDocuments st).2 = noDocsMsg := by
  refine ⟨rfl, rfl, ?_, rfl, rfl⟩
  show (st.dataFiles.filter (fun n => !isPdfName n)).filter
      (fun n => isPdfName n) = []
  exact filter_not_filter (fun n => isPdfName n) st.dataFiles

/-- C10: on a cache hit, rebuilding a document's tools performs no writes:
the resulting system state (storage, manifest, segmentation counter) is
exactly the input state, and the two tools are built from the cached
indices. -/
theorem rebuild_cache_hit_no_write (seg : Seg) (sys : Sys) (p : String)
    (v s : List String)
    (h : loadDocIndex sys.storage (getDoc p) = some (v, s)) :
    rebuildToolsForDocument seg sys p =
      (.ok [mkVectorTool (getDoc p) v, mkSummaryTool (getDoc p) s], sys) :=
  rebuild_hit seg sys p v s h

/-- C10's witness on a concrete cached document. -/
theorem rebuild_cache_hit_no_write_witness :
    rebuildToolsForDocument segAllOk sysW "data/a.pdf" =
      (.ok [mkVectorTool "a" ["segment"], mkSummaryTool "a" ["segment"]], sysW) :=
  rebuild_cache_hit_no_write segAllOk sysW "data/a.pdf" ["segment"] ["segment"] rfl
